import Mathlib

/-!
Verification of the accounting backend (NestJS ticket router + CSV report
pipeline) against its natural-language specification.

The development shallowly embeds the two subsystems:

* `src/reports/reports.service.ts` — the report pipeline: per-report status
  strings, timing metrics with a shared run counter, and the `accounts`
  CSV aggregation.  JavaScript numbers are modelled as `JsNum`
  (a rational or `NaN`); JS string primitives (`split`, `trim`, `endsWith`,
  `parseFloat`) are modelled structurally over character lists.
* `src/tickets/tickets.service.ts` — the ticket router: `createTicket`
  dispatch, assignee resolution, and the transactional `strikeOff` path,
  over an explicit store of users and tickets.  The sequelize transaction's
  automatic rollback is modelled by `createTicketRun` returning the original
  store on any error.
-/

namespace Accounting

/-! ## JavaScript string primitives, modelled structurally over `List Char` -/

/-- Model of JS `String.prototype.split(sep)` for a one-character separator:
splitting the empty string yields `[""]`, and consecutive separators yield
empty groups, as in JavaScript. -/
def jsSplitChars (sep : Char) : List Char → List (List Char)
  | [] => [[]]
  | c :: cs =>
    if c = sep then [] :: jsSplitChars sep cs
    else
      match jsSplitChars sep cs with
      | [] => [[c]]
      | g :: gs => (c :: g) :: gs

/-- JS `line.split(sep)` as a list of strings. -/
def jsSplit (s : String) (sep : Char) : List String :=
  (jsSplitChars sep s.data).map (fun cs => String.mk cs)

/-- Whitespace characters stripped by JS `String.prototype.trim` (the
common ASCII ones, which are the only ones appearing in CSV content). -/
def isJsSpace (c : Char) : Bool :=
  c = ' ' || c = '\t' || c = '\n' || c = '\r'

/-- Model of JS `String.prototype.trim`. -/
def jsTrim (s : String) : String :=
  String.mk (((s.data.dropWhile isJsSpace).reverse.dropWhile isJsSpace).reverse)

/-- Model of JS `String.prototype.endsWith`. -/
def jsEndsWith (s suffix : String) : Bool :=
  suffix.data.reverse.isPrefixOf s.data.reverse

/-! ## JavaScript numbers and `parseFloat` -/

/-- A JavaScript value as stored in the balance records: a finite number
(an exact rational; IEEE doubles are idealized as rationals, exact on the
integer ranges the refinement claim is restricted to), `NaN`,
`±Infinity`, or a string.  The `strVal` case arises only when an account
name collides with an inherited `Object.prototype` member: the `+=` then
concatenates the inherited function into a string; its exact text is not
modelled because the generator throws on `balance.toFixed` before the
value can be printed (see `accountsReportLines`). -/
inductive JsNum where
  | num (q : ℚ)
  | nan
  | inf
  | negInf
  | strVal
  deriving DecidableEq

deriving instance DecidableEq for Except

/-- JS `+`: a string operand concatenates into a string; `NaN` is
absorbing among numbers; `Infinity + -Infinity` is `NaN`. -/
def JsNum.add : JsNum → JsNum → JsNum
  | strVal, _ => strVal
  | _, strVal => strVal
  | num a, num b => num (a + b)
  | nan, _ => nan
  | _, nan => nan
  | inf, inf => inf
  | inf, negInf => nan
  | negInf, inf => nan
  | negInf, negInf => negInf
  | inf, num _ => inf
  | num _, inf => inf
  | negInf, num _ => negInf
  | num _, negInf => negInf

/-- JS `-`: operands are coerced to numbers (the `strVal` strings coerce
to `NaN`); `NaN` is absorbing; `Infinity - Infinity` is `NaN`. -/
def JsNum.sub : JsNum → JsNum → JsNum
  | num a, num b => num (a - b)
  | strVal, _ => nan
  | _, strVal => nan
  | nan, _ => nan
  | _, nan => nan
  | inf, inf => nan
  | inf, negInf => inf
  | negInf, inf => negInf
  | negInf, negInf => nan
  | inf, num _ => inf
  | num _, inf => negInf
  | negInf, num _ => negInf
  | num _, negInf => inf

/-- JS falsiness: `0` and `NaN` are falsy; `±Infinity` is truthy, and the
`strVal` strings (function sources plus digits) are nonempty, so truthy. -/
def JsNum.falsy : JsNum → Bool
  | num q => q == 0
  | nan => true
  | inf => false
  | negInf => false
  | strVal => false

/-- Whether a `JsNum` is a finite number. -/
def JsNum.isNum : JsNum → Bool
  | num _ => true
  | _ => false

/-- Whether a `JsNum` is a string value. -/
def JsNum.isStr : JsNum → Bool
  | strVal => true
  | _ => false

/-- The rational value of a `JsNum` (`0` outside `num`; only used under an
`isNum` hypothesis). -/
def JsNum.q : JsNum → ℚ
  | num a => a
  | _ => 0

/-- Take the longest prefix of decimal digits, returning it and the rest. -/
def takeDigits : List Char → List Char × List Char
  | [] => ([], [])
  | c :: cs =>
    if c.isDigit then
      let (d, r) := takeDigits cs
      (c :: d, r)
    else ([], c :: cs)

/-- Numeric value of a list of decimal digit characters. -/
def digitsToNat (ds : List Char) : ℕ :=
  ds.foldl (fun a c => a * 10 + (c.toNat - 48)) 0

/-- The rational denoted by a sign, integer digits and fraction digits. -/
def decValue (sgn : ℚ) (ip fp : List Char) : ℚ :=
  sgn * ((digitsToNat ip : ℚ) + (digitsToNat fp : ℚ) / 10 ^ fp.length)

/-- The value of an exponent part `[eE][+-]?digits` at the head of the
rest of the input; `0` when no valid exponent part starts there (JS then
keeps only the shorter valid prefix, e.g. `parseFloat('1e') = 1`). -/
def parseExponentTail (r : List Char) : ℤ :=
  let negE : Bool := match r with | '-' :: _ => true | _ => false
  let r1 := match r with | '-' :: t => t | '+' :: t => t | t => t
  let ds := (takeDigits r1).1
  if ds.isEmpty then 0
  else if negE then -(digitsToNat ds : ℤ) else (digitsToNat ds : ℤ)

/-- The exponent denoted at the head of the rest of the input. -/
def parseExponent : List Char → ℤ
  | 'e' :: r => parseExponentTail r
  | 'E' :: r => parseExponentTail r
  | _ => 0

/-- Model of JS `parseFloat`: the longest prefix of the form optional
whitespace, optional sign, then either `Infinity` or a decimal literal
with optional fraction digits and optional `[eE][+-]?digits` exponent;
trailing junk is ignored and the result is `NaN` when no digits (and no
`Infinity`) can be parsed. -/
def parseFloat (s : String) : JsNum :=
  let cs0 := s.data.dropWhile isJsSpace
  let neg : Bool := match cs0 with | '-' :: _ => true | _ => false
  let cs1 := match cs0 with | '-' :: r => r | '+' :: r => r | r => r
  if "Infinity".data.isPrefixOf cs1 then
    if neg then .negInf else .inf
  else
    let sgn : ℚ := if neg then -1 else 1
    let ipRest := takeDigits cs1
    let fpRest := match ipRest.2 with
      | '.' :: r => takeDigits r
      | _ => (([] : List Char), ipRest.2)
    if ipRest.1.isEmpty && fpRest.1.isEmpty then .nan
    else .num (decValue sgn ipRest.1 fpRest.1 * (10 : ℚ) ^ parseExponent fpRest.2)

/-- Model of `parseFloat(String(x || 0))` applied to a destructured CSV
field `x`: an absent field (`undefined`) and the empty string are falsy, so
`x || 0` turns them into `0` and the parse yields `0`; any other string is
passed to `parseFloat` unchanged. -/
def parseField : Option String → JsNum
  | none => .num 0
  | some s => if s = "" then .num 0 else parseFloat s

/-! ## CSV row parsing (shared shape of all three generators:
`const [, account, , debit, credit] = line.split(',')`) -/

/-- The comma-separated fields of a CSV line. -/
def rowFields (line : String) : List String := jsSplit line ','

/-- The destructured `account` field.  When the line has fewer than two
fields, JS destructuring yields `undefined`, and using it as an object key
coerces it to the string `"undefined"`. -/
def rowAccount (line : String) : String :=
  ((rowFields line)[1]?).getD "undefined"

/-- The destructured `debit` field (`none` = `undefined`). -/
def rowDebit (line : String) : Option String := (rowFields line)[3]?

/-- The destructured `credit` field (`none` = `undefined`). -/
def rowCredit (line : String) : Option String := (rowFields line)[4]?

/-- The row's contribution `parseFloat(String(debit || 0)) -
parseFloat(String(credit || 0))`. -/
def rowDelta (line : String) : JsNum :=
  (parseField (rowDebit line)).sub (parseField (rowCredit line))

/-! ## The `accountBalances` record (insertion-ordered, as JS object keys) -/

/-- Lookup in the insertion-ordered record. -/
def getBal : List (String × JsNum) → String → Option JsNum
  | [], _ => none
  | (b, w) :: rest, a => if b = a then some w else getBal rest a

/-- Write-through in the insertion-ordered store of own properties:
updating an existing key keeps its position, a new key is appended (JS
own-property insertion order; `Object.entries`' array-index-first
enumeration is applied separately by `jsEntries`). -/
def setBal : List (String × JsNum) → String → JsNum → List (String × JsNum)
  | [], a, v => [(a, v)]
  | (b, w) :: rest, a, v =>
    if b = a then (b, v) :: rest else (b, w) :: setBal rest a v

/-- The own data-property names of `Object.prototype` that a plain object
literal inherits (ECMA-262, including the Annex B accessor pairs);
`__proto__` is listed separately because it is an accessor whose setter
swallows assignments of non-object values. -/
def protoMembers : List String :=
  ["constructor", "hasOwnProperty", "isPrototypeOf", "propertyIsEnumerable",
   "toLocaleString", "toString", "valueOf",
   "__defineGetter__", "__defineSetter__", "__lookupGetter__", "__lookupSetter__"]

/-- Whether an arbitrary key, looked up on a plain object literal with no
own property of that name, finds an inherited `Object.prototype` member
(always a truthy function or object, never `undefined`). -/
def inheritsObjectMember (k : String) : Bool :=
  k == "__proto__" || protoMembers.contains k

/-- Whether a key collides with no inherited `Object.prototype` member. -/
def plainKey (a : String) : Bool := !inheritsObjectMember a

/-- One loop iteration of `accountsAsync` (reports.service.ts lines
283–290): `if (!accountBalances[account]) accountBalances[account] = 0;`
(the reset also fires when the stored balance is falsy, i.e. `0` or `NaN`)
followed by `accountBalances[account] += parseFloat(...) - parseFloat(...)`.
JS plain-object semantics for pathological account names: reading
`accountBalances['__proto__']` yields `Object.prototype` (truthy, so no
reset) and the `+=` assignment goes through the inherited `__proto__`
setter, which silently drops a non-object value — the record is unchanged
and no own property ever appears; reading another inherited member name
(e.g. `toString`) with no own property yields the inherited function
(truthy, so no reset), and the `+=` concatenates it into a string, which
the assignment stores as an own property (`strVal`). -/
def processLine (bals : List (String × JsNum)) (line : String) : List (String × JsNum) :=
  let a := rowAccount line
  if a = "__proto__" then bals
  else
    let cur : JsNum :=
      match getBal bals a with
      | some v => if v.falsy then .num 0 else v
      | none => if protoMembers.contains a then .strVal else .num 0
    setBal bals a (cur.add (rowDelta line))

/-- `content.trim().split('\n')` — the lines of one CSV file. -/
def fileLines (content : String) : List String := jsSplit (jsTrim content) '\n'

/-- Processing all lines of one file's content. -/
def processContent (bals : List (String × JsNum)) (content : String) : List (String × JsNum) :=
  (fileLines content).foldl processLine bals

/-! ## Input-file filters of the three generators (a directory listing is a
list of (file name, file content) pairs, in `readdir` order) -/

/-- `accountsAsync`'s input filter (line 276): every `.csv` file — note the
absence of any exclusion of its own output name `accounts.csv`. -/
def accountsInputFiles (dir : List (String × String)) : List (String × String) :=
  dir.filter (fun f => jsEndsWith f.1 ".csv")

/-- `yearlyAsync`'s input filter (line 359): `.csv` files except
`yearly.csv`. -/
def yearlyInputFiles (dir : List (String × String)) : List (String × String) :=
  dir.filter (fun f => jsEndsWith f.1 ".csv" && f.1 != "yearly.csv")

/-- `fsAsync`'s input filter (line 492): `.csv` files except `fs.csv`. -/
def fsInputFiles (dir : List (String × String)) : List (String × String) :=
  dir.filter (fun f => jsEndsWith f.1 ".csv" && f.1 != "fs.csv")

/-- The `accountBalances` record after `accountsAsync` has processed a
staging directory.  The per-file tasks are modelled as completing in
listing order (the aggregation of the synchronous `accounts()` variant and
one resolution of the async `Promise.all`; per-account sums do not depend
on this order). -/
def accountsBalances (dir : List (String × String)) : List (String × JsNum) :=
  (accountsInputFiles dir).foldl (fun b f => processContent b f.2) []

/-! ## `Number.prototype.toFixed(2)` -/

/-- Two-digit zero-padded decimal string. -/
def pad2 (k : ℕ) : String := (if k < 10 then "0" else "") ++ Nat.repr k

/-- Render `n` hundredths as a fixed-point string with two decimals. -/
def fixedOfInt (n : ℤ) : String :=
  (if n < 0 then "-" else "") ++ Nat.repr (n.natAbs / 100) ++ "." ++ pad2 (n.natAbs % 100)

/-- Model of JS `(q).toFixed(2)` for a non-`NaN` value: round `q * 100` to
the nearest integer, taking the larger integer on ties (ECMA-262's
`toFixed`), then print with two decimals. -/
def ratToFixed2 (q : ℚ) : String := fixedOfInt ⌊q * 100 + 1 / 2⌋

/-- `toFixed(2)` on a `JsNum`: `"NaN"` for `NaN` and `"Infinity"` /
`"-Infinity"` for the infinities, as in JS.  On a string value JS throws
(`toFixed` is not a function) — that case is intercepted before formatting
by `accountsReportLines`, so the `strVal` equation is never reached and
its value is arbitrary. -/
def JsNum.toFixed2 : JsNum → String
  | num q => ratToFixed2 q
  | nan => "NaN"
  | inf => "Infinity"
  | negInf => "-Infinity"
  | strVal => ""

/-- Whether a string is an array-index key (the canonical decimal form of
an integer `0 ≤ i < 2^32 - 1`): JS object enumeration lists these first,
in ascending numeric order, before the other string keys. -/
def isArrayIndex (s : String) : Bool :=
  !s.data.isEmpty && s.data.all Char.isDigit
    && (s == "0" || s.data.head? != some '0')
    && digitsToNat s.data < 4294967295

/-- Insert an entry into a list of array-index entries sorted by ascending
numeric key. -/
def insertByIndex (p : String × JsNum) :
    List (String × JsNum) → List (String × JsNum)
  | [] => [p]
  | q :: rest =>
    if digitsToNat p.1.data < digitsToNat q.1.data then p :: q :: rest
    else q :: insertByIndex p rest

/-- Sort array-index entries by ascending numeric key. -/
def sortByIndex (l : List (String × JsNum)) : List (String × JsNum) :=
  l.foldr insertByIndex []

/-- `Object.entries` enumeration order over the own properties: the
array-index keys first, in ascending numeric order, then the remaining
string keys in insertion order. -/
def jsEntries (bals : List (String × JsNum)) : List (String × JsNum) :=
  sortByIndex (bals.filter (fun p => isArrayIndex p.1))
    ++ bals.filter (fun p => !isArrayIndex p.1)

/-- The lines written to `out/accounts.csv` (lines 293–296): the header
followed by one line per `Object.entries` entry.  When some stored value
is a string (an account name collided with an inherited member),
`balance.toFixed(2)` throws a `TypeError`, the generator's catch takes
over and no output is produced — modelled as the `Except.error` case. -/
def accountsReportLines (dir : List (String × String)) : Except String (List String) :=
  if (jsEntries (accountsBalances dir)).any (fun p => p.2.isStr) then
    .error "balance.toFixed is not a function"
  else
    .ok ("Account,Balance"
      :: (jsEntries (accountsBalances dir)).map (fun p => p.1 ++ "," ++ p.2.toFixed2))

/-! ## Specification-side view of the accounts aggregation (for the
refinement claim): "one row per account in the order first encountered,
balance = Σ(debit − credit) across all rows of all files". -/

/-- All input lines of all scanned files, in processing order. -/
def allLines (dir : List (String × String)) : List String :=
  ((accountsInputFiles dir).map (fun f => fileLines f.2)).flatten

/-- The distinct elements of a list in order of first encounter
(spec side). -/
def firstEncountered : List String → List String
  | [] => []
  | a :: rest => a :: firstEncountered (rest.filter (fun b => b != a))
  termination_by l => l.length
  decreasing_by
    simp only [List.length_cons]
    exact Nat.lt_succ_of_le (List.length_filter_le _ _)

/-- Whether a row's debit and credit fields both parse as numbers. -/
def lineNumeric (l : String) : Bool :=
  (parseField (rowDebit l)).isNum && (parseField (rowCredit l)).isNum

/-- Whether every row of every scanned file is numeric. -/
def allLinesNumeric (dir : List (String × String)) : Bool :=
  (allLines dir).all lineNumeric

/-- The rational value of a numeric row's contribution (spec side). -/
def rowDeltaQ (l : String) : ℚ :=
  (parseField (rowDebit l)).q - (parseField (rowCredit l)).q

/-- Σ(debit − credit) over the rows of a given account (spec side). -/
def sumDelta (lines : List String) (a : String) : ℚ :=
  ((lines.filter (fun l => rowAccount l == a)).map rowDeltaQ).sum

/-- Whether a debit/credit field is absent, empty, or a pure digit string
(an integer literal). -/
def fieldIsIntString : Option String → Bool
  | none => true
  | some s => s == "" || (!s.data.isEmpty && s.data.all Char.isDigit)

/-- The magnitude of an integer field (`0` when absent or empty). -/
def fieldNat : Option String → ℕ
  | none => 0
  | some s => if s = "" then 0 else digitsToNat s.data

/-- Total magnitude of all debit and credit fields of a list of rows. -/
def linesFieldTotal (lines : List String) : ℕ :=
  lines.foldl (fun acc l => acc + fieldNat (rowDebit l) + fieldNat (rowCredit l)) 0

/-- A row on which the model provably coincides with the program: finite
numeric fields; an account name that neither triggers the array-index
enumeration reorder nor collides with an inherited `Object.prototype`
member; and integer-valued fields. -/
def lineGood (l : String) : Bool :=
  (lineNumeric l && plainKey (rowAccount l))
    && ((!isArrayIndex (rowAccount l))
      && (fieldIsIntString (rowDebit l) && fieldIsIntString (rowCredit l)))

/-- Every row of every scanned file is good, and the total field magnitude
stays below `2^53`, the range on which IEEE-double integer arithmetic
(and hence every balance the program computes) is exact. -/
def allLinesGood (dir : List (String × String)) : Bool :=
  (allLines dir).all lineGood && decide (linesFieldTotal (allLines dir) < 2 ^ 53)

/-! ### Rational-valued mirror of the balances record, used to relate the
code-side fold to the spec-side sums. -/

/-- Lookup in a rational-valued insertion-ordered record. -/
def getBalQ : List (String × ℚ) → String → Option ℚ
  | [], _ => none
  | (b, w) :: rest, a => if b = a then some w else getBalQ rest a

/-- Write-through in a rational-valued insertion-ordered record. -/
def setBalQ : List (String × ℚ) → String → ℚ → List (String × ℚ)
  | [], a, v => [(a, v)]
  | (b, w) :: rest, a, v =>
    if b = a then (b, v) :: rest else (b, w) :: setBalQ rest a v

/-- The rational-valued counterpart of `processLine`. -/
def stepQ (bals : List (String × ℚ)) (l : String) : List (String × ℚ) :=
  setBalQ bals (rowAccount l) (((getBalQ bals (rowAccount l)).getD 0) + rowDeltaQ l)

/-- The rational-valued balances after a list of rows. -/
def qBalances (lines : List String) : List (String × ℚ) := lines.foldl stepQ []

/-- Inject a rational record into a `JsNum` record. -/
def mapNum (qb : List (String × ℚ)) : List (String × JsNum) :=
  qb.map (fun p => (p.1, JsNum.num p.2))

/-! ## Report status strings (the `states` record, lines 131–135) -/

/-- The three report names. -/
inductive ReportName where
  | accounts
  | yearly
  | fs
  deriving DecidableEq

/-- The `states` record: one status string per report. -/
structure States where
  accounts : String
  yearly : String
  fs : String
  deriving DecidableEq

/-- The initial `states` value: all three reports `idle` (lines 131–135). -/
def initialStates : States := { accounts := "idle", yearly := "idle", fs := "idle" }

/-- Read one report's status field. -/
def getStatus (s : States) : ReportName → String
  | .accounts => s.accounts
  | .yearly => s.yearly
  | .fs => s.fs

/-- Overwrite one report's status field. -/
def setStatus (s : States) : ReportName → String → States
  | .accounts, v => { s with accounts := v }
  | .yearly, v => { s with yearly := v }
  | .fs, v => { s with fs := v }

/-- The result of indexing the `states` plain object with an arbitrary
string key: one of the three own status strings, an inherited
`Object.prototype` member (a function or object, not a status string), or
`undefined`. -/
inductive StateLookup where
  | status (s : String)
  | inherited (name : String)
  | undefined
  deriving DecidableEq

/-- `state(scope)` (lines 193–195): indexing the `states` record with an
arbitrary string.  The lookup is a plain-object property access, so it
traverses the prototype chain: the three own keys return their status
strings, any other key that names an `Object.prototype` member returns
the inherited member, and only the remaining keys yield `undefined`. -/
def state (s : States) (scope : String) : StateLookup :=
  if scope = "accounts" then .status s.accounts
  else if scope = "yearly" then .status s.yearly
  else if scope = "fs" then .status s.fs
  else if inheritsObjectMember scope then .inherited scope
  else .undefined

/-- `finished in <seconds, 2 decimals> seconds` as written by the async
generators (lines 301, 389, 573), with `tMs` the elapsed milliseconds. -/
def statusFinishedAsync (tMs : ℚ) : String :=
  "finished in " ++ ratToFixed2 (tMs / 1000) ++ " seconds"

/-- The status written by the synchronous generators `accounts()`,
`yearly()`, `fs()` (lines 343, 436, 704) — note: no `" seconds"` suffix. -/
def statusFinishedSync (tMs : ℚ) : String :=
  "finished in " ++ ratToFixed2 (tMs / 1000)

/-- `error: <message>` as written by the async generators' catch blocks
(lines 311, 399, 583). -/
def statusError (msg : String) : String := "error: " ++ msg

/-- One atomic status write performed by some report operation of
`ReportsService`; arbitrary interleavings of report operations correspond
to arbitrary sequences of these writes. -/
inductive ReportOp where
  | start (r : ReportName)
  | finishAsync (r : ReportName) (tMs : ℚ)
  | fail (r : ReportName) (msg : String)
  | finishSync (r : ReportName) (tMs : ℚ)

/-- Apply one status write. -/
def applyOp (s : States) : ReportOp → States
  | .start r => setStatus s r "starting"
  | .finishAsync r t => setStatus s r (statusFinishedAsync t)
  | .fail r m => setStatus s r (statusError m)
  | .finishSync r t => setStatus s r (statusFinishedSync t)

/-- Apply a sequence of status writes. -/
def runOps (s : States) (ops : List ReportOp) : States := ops.foldl applyOp s

/-- Whether a status write comes from the asynchronous code paths (the ones
reachable from the HTTP layer); `finishSync` is the write of the legacy
synchronous generators. -/
def ReportOp.isAsync : ReportOp → Bool
  | .finishSync _ _ => false
  | _ => true

/-- The four status-string shapes named by the specification. -/
def IsFourShape (v : String) : Prop :=
  v = "idle" ∨ v = "starting" ∨
    (∃ t : ℚ, v = "finished in " ++ ratToFixed2 t ++ " seconds") ∨
    (∃ m : String, v = "error: " ++ m)

/-! ## Timing metrics (the `metrics` record, lines 170–186) -/

/-- Per-report and total durations, in milliseconds. -/
structure ReportTimeMetrics where
  accounts : ℚ
  yearly : ℚ
  fs : ℚ
  total : ℚ
  deriving DecidableEq

/-- The `metrics` record. -/
structure ReportMetrics where
  lastRunTime : ReportTimeMetrics
  averageRunTime : ReportTimeMetrics
  runs : ℕ
  lastRun : Option ℚ
  deriving DecidableEq

/-- The initial metrics (lines 170–186). -/
def initialMetrics : ReportMetrics :=
  { lastRunTime := { accounts := 0, yearly := 0, fs := 0, total := 0 },
    averageRunTime := { accounts := 0, yearly := 0, fs := 0, total := 0 },
    runs := 0, lastRun := none }

/-- The mutable service state touched by the report operations. -/
structure PipelineState where
  states : States
  metrics : ReportMetrics
  deriving DecidableEq

/-- The outcome of one generator's file-system interaction: on success the
staging-directory listing it read (and its output write succeeded); on
failure the thrown error's message. -/
abbrev FsOutcome := Except String (List (String × String))

/-- `accountsAsync` (lines 266–314) as a state transformer: parameterised
by the file-system outcome and the measured elapsed milliseconds.  On
success it writes the finished status and updates the accounts last-run and
running-average metrics using the current (pre-increment) run counter; on
any failure the catch block writes `error: <message>` and returns `false`
without touching the metrics. -/
def accountsAsyncRun (ea : FsOutcome) (tMs : ℚ) (st : PipelineState) :
    PipelineState × Bool :=
  match ea with
  | .error msg =>
    ({ st with states := { st.states with accounts := statusError msg } }, false)
  | .ok _dir =>
    let m := st.metrics
    ({ states := { st.states with accounts := statusFinishedAsync tMs },
       metrics := { m with
         lastRunTime := { m.lastRunTime with accounts := tMs },
         averageRunTime := { m.averageRunTime with
           accounts := (m.averageRunTime.accounts * m.runs + tMs) / (m.runs + 1) } } },
     true)

/-- `yearlyAsync` (lines 349–402) as a state transformer; same structure as
`accountsAsyncRun` on the `yearly` fields. -/
def yearlyAsyncRun (ey : FsOutcome) (tMs : ℚ) (st : PipelineState) :
    PipelineState × Bool :=
  match ey with
  | .error msg =>
    ({ st with states := { st.states with yearly := statusError msg } }, false)
  | .ok _dir =>
    let m := st.metrics
    ({ states := { st.states with yearly := statusFinishedAsync tMs },
       metrics := { m with
         lastRunTime := { m.lastRunTime with yearly := tMs },
         averageRunTime := { m.averageRunTime with
           yearly := (m.averageRunTime.yearly * m.runs + tMs) / (m.runs + 1) } } },
     true)

/-- `fsAsync` (lines 442–586) as a state transformer; same structure as
`accountsAsyncRun` on the `fs` fields. -/
def fsAsyncRun (ef : FsOutcome) (tMs : ℚ) (st : PipelineState) :
    PipelineState × Bool :=
  match ef with
  | .error msg =>
    ({ st with states := { st.states with fs := statusError msg } }, false)
  | .ok _dir =>
    let m := st.metrics
    ({ states := { st.states with fs := statusFinishedAsync tMs },
       metrics := { m with
         lastRunTime := { m.lastRunTime with fs := tMs },
         averageRunTime := { m.averageRunTime with
           fs := (m.averageRunTime.fs * m.runs + tMs) / (m.runs + 1) } } },
     true)

/-- `processReportsAsync` (lines 222–261) as a state transformer.  The
three generators are composed sequentially; they touch disjoint fields, so
the final state is the same for the parallel and the sequential mode.  The
generators' boolean results are discarded (as in the source), the total
last-run and running-average metrics are updated with the pre-increment run
counter, then `runs` is incremented and `lastRun` stamped (`now`).  The
`catch`/`return false` branch is unreachable because each generator catches
its own errors, so the call returns `true`. -/
def processReportsAsyncRun (ea ey ef : FsOutcome) (tA tY tF tTotal now : ℚ)
    (st : PipelineState) : PipelineState × Bool :=
  let st1 := (accountsAsyncRun ea tA st).1
  let st2 := (yearlyAsyncRun ey tY st1).1
  let st3 := (fsAsyncRun ef tF st2).1
  let m := st3.metrics
  let m1 := { m with
    lastRunTime := { m.lastRunTime with total := tTotal },
    averageRunTime := { m.averageRunTime with
      total := (m.averageRunTime.total * m.runs + tTotal) / (m.runs + 1) } }
  let m2 := { m1 with runs := m1.runs + 1, lastRun := some now }
  ({ st3 with metrics := m2 }, true)

/-! ## Configuration (constructor lines 141–151 and `reports.config.ts`)
versus the directories the generators actually use -/

/-- The configuration values visible to the service constructor
(`none` = not configured, so the fallback applies). -/
structure ConfigView where
  tmpDir : Option String
  outputDir : Option String
  parallelProcessing : Option Bool

/-- `this.TMP_DIR = configService.get('reports.tmpDir', 'tmp')` (line 143). -/
def TMP_DIR (c : ConfigView) : String := c.tmpDir.getD "tmp"

/-- `this.OUTPUT_DIR = configService.get('reports.outputDir', 'out')`
(line 144). -/
def OUTPUT_DIR (c : ConfigView) : String := c.outputDir.getD "out"

/-- The staging directory `accountsAsync` actually lists (line 269):
the hardcoded literal `'tmp'`, not `this.TMP_DIR`. -/
def accountsTmpDir : String := "tmp"

/-- The output file `accountsAsync` actually writes (line 270): the
hardcoded literal `'out/accounts.csv'`, not under `this.OUTPUT_DIR`. -/
def accountsOutputFile : String := "out/accounts.csv"

/-- The accounts report computed against a whole file system (a map from
directory name to listing): the generator reads the hardcoded `'tmp'`. -/
def accountsReportFrom (fsys : String → List (String × String)) :
    Except String (List String) :=
  accountsReportLines (fsys accountsTmpDir)

end Accounting

namespace Tickets

/-- Ticket types (`db/models/Ticket.ts`). -/
inductive TicketType where
  | managementReport
  | registrationAddressChange
  | strikeOff
  deriving DecidableEq

/-- Ticket statuses. -/
inductive TicketStatus where
  | «open»
  | resolved
  deriving DecidableEq

/-- Ticket categories. -/
inductive TicketCategory where
  | accounting
  | corporate
  | management
  deriving DecidableEq

/-- User roles (`db/models/User.ts`). -/
inductive UserRole where
  | director
  | accountant
  | corporateSecretary
  deriving DecidableEq

/-- The display name of a role (used inside error messages). -/
def roleName : UserRole → String
  | .director => "director"
  | .accountant => "accountant"
  | .corporateSecretary => "corporateSecretary"

/-- A persisted user row. -/
structure User where
  id : ℕ
  role : UserRole
  companyId : ℕ
  createdAt : ℤ
  deriving DecidableEq

/-- A persisted ticket row. -/
structure Ticket where
  id : ℕ
  type : TicketType
  companyId : ℕ
  assigneeId : ℕ
  status : TicketStatus
  category : TicketCategory
  deriving DecidableEq

/-- The response DTO returned by `createTicket`. -/
structure TicketResponseDto where
  id : ℕ
  type : TicketType
  companyId : ℕ
  assigneeId : ℕ
  status : TicketStatus
  category : TicketCategory
  deriving DecidableEq

/-- The relational store: users are read-only for the router; tickets are
created and bulk-updated; `nextTicketId` models the store-assigned id. -/
structure Store where
  users : List User
  tickets : List Ticket
  nextTicketId : ℕ
  deriving DecidableEq

/-- Errors surfaced by the router: every failure path throws a
`ConflictException` with a message. -/
inductive TicketError where
  | conflict (msg : String)
  deriving DecidableEq

/-- Insert into a list sorted by `createdAt` descending. -/
def insertByCreatedDesc (u : User) : List User → List User
  | [] => [u]
  | v :: rest =>
    if v.createdAt ≤ u.createdAt then u :: v :: rest
    else v :: insertByCreatedDesc u rest

/-- Sort by `createdAt` descending (`order: [['createdAt', 'DESC']]`). -/
def sortByCreatedDesc : List User → List User
  | [] => []
  | u :: rest => insertByCreatedDesc u (sortByCreatedDesc rest)

/-- `User.findAll({ where: { companyId, role }, order: createdAt DESC })`. -/
def findUsers (st : Store) (companyId : ℕ) (role : UserRole) : List User :=
  sortByCreatedDesc
    (st.users.filter (fun u => decide (u.companyId = companyId ∧ u.role = role)))

/-- `mapTicketToDto` (lines 342–351). -/
def mapTicketToDto (t : Ticket) : TicketResponseDto :=
  { id := t.id, type := t.type, companyId := t.companyId,
    assigneeId := t.assigneeId, status := t.status, category := t.category }

/-- `determineTicketCategory` (lines 184–195). -/
def determineTicketCategory : TicketType → TicketCategory
  | .managementReport => .accounting
  | .registrationAddressChange => .corporate
  | .strikeOff => .management

/-- The primary assignee role per ticket type (lines 204–216). -/
def primaryRole : TicketType → UserRole
  | .managementReport => .accountant
  | .registrationAddressChange => .corporateSecretary
  | .strikeOff => .director

/-- `findAssignee` (lines 200–251): query by primary role, fall back to
director for `registrationAddressChange`, fail on no candidate, and fail on
multiple candidates for the uniqueness-sensitive roles. -/
def findAssignee (st : Store) (ty : TicketType) (companyId : ℕ) :
    Except TicketError User :=
  let role0 := primaryRole ty
  let assignees0 := findUsers st companyId role0
  let roleAndCandidates :=
    if ty = TicketType.registrationAddressChange ∧ assignees0.length = 0 then
      (UserRole.director, findUsers st companyId UserRole.director)
    else (role0, assignees0)
  match roleAndCandidates.2 with
  | [] =>
    .error (.conflict ("Cannot find user with role " ++ roleName roleAndCandidates.1
      ++ " to create a ticket"))
  | u :: rest =>
    if (roleAndCandidates.1 = UserRole.corporateSecretary ∨
        roleAndCandidates.1 = UserRole.director) ∧ rest.length > 0 then
      .error (.conflict ("Multiple users with role " ++ roleName roleAndCandidates.1
        ++ ". Cannot create a ticket"))
    else .ok u

/-- `checkForDuplicateRegistrationTicket` (lines 165–179). -/
def checkForDuplicateRegistrationTicket (st : Store) (companyId : ℕ) :
    Except TicketError Unit :=
  if st.tickets.any (fun t => decide (t.companyId = companyId ∧
      t.type = TicketType.registrationAddressChange ∧
      t.status = TicketStatus.«open»)) then
    .error (.conflict "A registration address change ticket already exists for this company.")
  else .ok ()

/-- `createStrikeOffTicket` (lines 259–321), run inside one transaction:
find the company's directors (conflict on zero or several), insert the new
open management ticket assigned to the sole director, then set every other
currently-open ticket of the company to `resolved` (`id: { Op.ne:
ticket.id }`).  An error means the transaction rolled back (no store
returned). -/
def createStrikeOffTicket (st : Store) (companyId : ℕ) :
    Except TicketError (Store × TicketResponseDto) :=
  match findUsers st companyId UserRole.director with
  | [] =>
    .error (.conflict "Cannot find user with role director to create a strike off ticket")
  | director :: rest =>
    if rest.length > 0 then
      .error (.conflict "Multiple users with role director. Cannot create a strike off ticket")
    else
      let ticket : Ticket :=
        { id := st.nextTicketId, type := .strikeOff, companyId := companyId,
          assigneeId := director.id, status := .«open», category := .management }
      let afterCreate := st.tickets ++ [ticket]
      let afterResolve := afterCreate.map (fun t =>
        if t.companyId = companyId ∧ t.status = TicketStatus.«open» ∧ t.id ≠ ticket.id
        then { t with status := TicketStatus.resolved } else t)
      .ok ({ st with tickets := afterResolve, nextTicketId := st.nextTicketId + 1 },
        mapTicketToDto ticket)

/-- `createTicket` (lines 124–153): dispatch `strikeOff` to the
transactional path; otherwise duplicate-check `registrationAddressChange`,
resolve the assignee, and insert one open ticket. -/
def createTicket (st : Store) (ty : TicketType) (companyId : ℕ) :
    Except TicketError (Store × TicketResponseDto) :=
  if ty = TicketType.strikeOff then createStrikeOffTicket st companyId
  else
    match (if ty = TicketType.registrationAddressChange then
        checkForDuplicateRegistrationTicket st companyId else .ok ()) with
    | .error e => .error e
    | .ok _ =>
      match findAssignee st ty companyId with
      | .error e => .error e
      | .ok assignee =>
        let ticket : Ticket :=
          { id := st.nextTicketId, type := ty, companyId := companyId,
            assigneeId := assignee.id, status := .«open»,
            category := determineTicketCategory ty }
        let st' : Store :=
          { st with tickets := st.tickets ++ [ticket], nextTicketId := st.nextTicketId + 1 }
        .ok (st', mapTicketToDto ticket)

/-- `createTicket` observed at the store level: on any error the
transaction (and, for the simple paths, the absence of any prior write)
leaves the store unchanged. -/
def createTicketRun (st : Store) (ty : TicketType) (companyId : ℕ) :
    Store × Except TicketError TicketResponseDto :=
  match createTicket st ty companyId with
  | .ok (st', dto) => (st', .ok dto)
  | .error e => (st, .error e)

/-- The ticket row inserted by a successful `strikeOff` creation for
company `cid` whose sole director is `d`. -/
def newStrikeTicket (st : Store) (cid : ℕ) (d : User) : Ticket :=
  { id := st.nextTicketId, type := TicketType.strikeOff, companyId := cid,
    assigneeId := d.id, status := TicketStatus.«open»,
    category := TicketCategory.management }

end Tickets


/-! ## Helper lemmas -/

namespace Accounting

theorem getStatus_setStatus (s : States) (r0 : ReportName) (v : String) (r : ReportName) :
    getStatus (setStatus s r0 v) r = if r = r0 then v else getStatus s r := by
  cases r0 <;> cases r <;> simp [getStatus, setStatus]

theorem ratToFixed2_intCast (n : ℤ) : ratToFixed2 ((n : ℚ)) = fixedOfInt (100 * n) := by
  unfold ratToFixed2
  rw [show (n : ℚ) * 100 + 1 / 2 = ((100 * n : ℤ) : ℚ) + 1 / 2 by push_cast; ring]
  rw [Int.floor_int_add, show ⌊(1 / 2 : ℚ)⌋ = 0 from by norm_num]
  norm_num

theorem decValue_digits (ds : List Char) (n : ℕ) (h : digitsToNat ds = n) :
    decValue 1 ds [] = (n : ℚ) := by
  unfold decValue
  rw [h, show digitsToNat ([] : List Char) = 0 from rfl]
  norm_num

theorem getBal_mapNum (qb : List (String × ℚ)) (a : String) :
    getBal (mapNum qb) a = (getBalQ qb a).map JsNum.num := by
  induction qb with
  | nil => rfl
  | cons p rest ih =>
    simp only [mapNum, List.map_cons] at ih ⊢
    by_cases hpa : p.1 = a
    · simp [getBal, getBalQ, hpa]
    · simp [getBal, getBalQ, hpa, ih]

theorem setBal_mapNum (qb : List (String × ℚ)) (a : String) (v : ℚ) :
    setBal (mapNum qb) a (JsNum.num v) = mapNum (setBalQ qb a v) := by
  induction qb with
  | nil => rfl
  | cons p rest ih =>
    by_cases hpa : p.1 = a <;> simp [mapNum, setBal, setBalQ, hpa] at ih ⊢ <;> simp [ih]

theorem isNum_exists_num (x : JsNum) (h : x.isNum = true) : ∃ q, x = JsNum.num q := by
  cases x with
  | num q => exact ⟨q, rfl⟩
  | nan => exact absurd h (by simp [JsNum.isNum])
  | inf => exact absurd h (by simp [JsNum.isNum])
  | negInf => exact absurd h (by simp [JsNum.isNum])
  | strVal => exact absurd h (by simp [JsNum.isNum])

theorem plainKey_split (a : String) (hp : plainKey a = true) :
    a ≠ "__proto__" ∧ protoMembers.contains a = false := by
  simp only [plainKey, inheritsObjectMember, Bool.not_eq_true', Bool.or_eq_false_iff,
    beq_eq_false_iff_ne, ne_eq] at hp
  exact hp

theorem processLine_fresh (bals : List (String × JsNum)) (l a : String) (v : JsNum)
    (ha : rowAccount l = a) (hpl : plainKey a = true) (hd : rowDelta l = v)
    (hnone : getBal bals a = none) :
    processLine bals l = setBal bals a ((JsNum.num 0).add v) := by
  obtain ⟨hne, hcont⟩ := plainKey_split a hpl
  simp only [processLine, ha, hd, hnone, hcont, if_neg hne, Bool.false_eq_true, if_false]

theorem jsEntries_no_index (bals : List (String × JsNum))
    (h : ∀ p ∈ bals, isArrayIndex p.1 = false) : jsEntries bals = bals := by
  unfold jsEntries
  rw [show bals.filter (fun p => isArrayIndex p.1) = [] from
      List.filter_eq_nil_iff.mpr (fun p hp => by simp [h p hp]),
    show bals.filter (fun p => !isArrayIndex p.1) = bals from
      List.filter_eq_self.mpr (fun p hp => by simp [h p hp])]
  rfl

theorem any_isStr_false (bals : List (String × JsNum))
    (h : ∀ p ∈ bals, p.2.isStr = false) :
    bals.any (fun p => p.2.isStr) = false := by
  rw [List.any_eq_false]
  intro p hp
  simp [h p hp]

theorem accountsReportLines_eval (dir : List (String × String))
    (bals : List (String × JsNum)) (hb : accountsBalances dir = bals)
    (hidx : ∀ p ∈ bals, isArrayIndex p.1 = false)
    (hstr : ∀ p ∈ bals, p.2.isStr = false) :
    accountsReportLines dir
      = .ok ("Account,Balance" :: bals.map (fun p => p.1 ++ "," ++ p.2.toFixed2)) := by
  unfold accountsReportLines
  rw [hb, jsEntries_no_index bals hidx, any_isStr_false bals hstr]
  simp only [Bool.false_eq_true, if_false]

theorem processLine_mapNum (qb : List (String × ℚ)) (l : String)
    (h : lineNumeric l = true) (hpl : plainKey (rowAccount l) = true) :
    processLine (mapNum qb) l = mapNum (stepQ qb l) := by
  have h' := h
  simp only [lineNumeric, Bool.and_eq_true] at h'
  obtain ⟨hd, hc⟩ := h'
  obtain ⟨qd, hqd⟩ := isNum_exists_num _ hd
  obtain ⟨qc, hqc⟩ := isNum_exists_num _ hc
  have hdelta : rowDelta l = JsNum.num (rowDeltaQ l) := by
    simp [rowDelta, rowDeltaQ, hqd, hqc, JsNum.sub, JsNum.q]
  obtain ⟨hne, hcont⟩ := plainKey_split _ hpl
  unfold processLine stepQ
  simp only [getBal_mapNum, hdelta, hcont, if_neg hne, Bool.false_eq_true, if_false]
  cases hg : getBalQ qb (rowAccount l) with
  | none =>
    simp only [hg, Option.map_none', Option.getD_none]
    rw [show (JsNum.num 0).add (JsNum.num (rowDeltaQ l)) = JsNum.num (0 + rowDeltaQ l) from rfl,
      setBal_mapNum]
  | some v =>
    simp only [hg, Option.map_some', Option.getD_some]
    by_cases hv : v = 0
    · subst hv
      simp only [show JsNum.falsy (JsNum.num 0) = true from by simp [JsNum.falsy], if_true]
      rw [show (JsNum.num 0).add (JsNum.num (rowDeltaQ l)) = JsNum.num (0 + rowDeltaQ l) from rfl,
        setBal_mapNum]
    · simp only [show JsNum.falsy (JsNum.num v) = false from by simp [JsNum.falsy, hv],
        Bool.false_eq_true, if_false]
      rw [show (JsNum.num v).add (JsNum.num (rowDeltaQ l)) = JsNum.num (v + rowDeltaQ l) from rfl,
        setBal_mapNum]

theorem foldl_processLine_mapNum (lines : List String) (qb : List (String × ℚ))
    (h : lines.all (fun l => lineNumeric l && plainKey (rowAccount l)) = true) :
    lines.foldl processLine (mapNum qb) = mapNum (lines.foldl stepQ qb) := by
  induction lines generalizing qb with
  | nil => rfl
  | cons l rest ih =>
    simp only [List.all_cons, Bool.and_eq_true] at h
    obtain ⟨⟨h1, h1p⟩, h2⟩ := h
    simp only [List.foldl_cons]
    rw [processLine_mapNum qb l h1 h1p, ih _ h2]

theorem accountsBalances_eq_foldl (dir : List (String × String)) :
    accountsBalances dir = (allLines dir).foldl processLine [] := by
  unfold accountsBalances allLines
  generalize accountsInputFiles dir = files
  suffices h : ∀ (fs : List (String × String)) (b : List (String × JsNum)),
      fs.foldl (fun b f => processContent b f.2) b
        = ((fs.map (fun f => fileLines f.2)).flatten).foldl processLine b from h files []
  intro fs
  induction fs with
  | nil => intro b; rfl
  | cons f rest ih =>
    intro b
    simp only [List.foldl_cons, List.map_cons, List.flatten_cons, List.foldl_append]
    rw [ih]
    rfl

end Accounting

namespace Accounting

theorem firstEncountered_mem (x : String) :
    ∀ l : List String, x ∈ firstEncountered l ↔ x ∈ l := by
  intro l
  induction l using firstEncountered.induct with
  | case1 => simp [firstEncountered]
  | case2 a rest ih =>
    rw [firstEncountered]
    by_cases hxa : x = a
    · subst hxa; simp
    · simp only [List.mem_cons, ih, List.mem_filter, bne_iff_ne, ne_eq, decide_eq_true_eq]
      constructor
      · rintro (h | ⟨h, -⟩)
        · exact absurd h hxa
        · exact Or.inr h
      · rintro (h | h)
        · exact absurd h hxa
        · exact Or.inr ⟨h, hxa⟩

theorem firstEncountered_nodup : ∀ l : List String, (firstEncountered l).Nodup := by
  intro l
  induction l using firstEncountered.induct with
  | case1 => simp [firstEncountered]
  | case2 a rest ih =>
    rw [firstEncountered]
    refine List.nodup_cons.mpr ⟨?_, ih⟩
    intro hmem
    have := (firstEncountered_mem a _).mp hmem
    simp [List.mem_filter] at this

theorem firstEncountered_append_singleton (x : String) :
    ∀ xs : List String, firstEncountered (xs ++ [x])
      = if x ∈ xs then firstEncountered xs else firstEncountered xs ++ [x] := by
  intro xs
  induction xs using firstEncountered.induct with
  | case1 => simp [firstEncountered]
  | case2 a rest ih =>
    by_cases hxa : x = a
    · subst hxa
      rw [List.cons_append, firstEncountered, firstEncountered]
      simp only [List.filter_append, List.mem_cons, true_or, if_true]
      rw [show ([x].filter (fun b => b != x)) = [] from by simp, List.append_nil]
    · rw [List.cons_append, firstEncountered, firstEncountered]
      have hfilter : ((rest ++ [x]).filter (fun b => b != a))
          = rest.filter (fun b => b != a) ++ [x] := by
        rw [List.filter_append]
        simp [hxa]
      rw [hfilter, ih]
      by_cases hxr : x ∈ rest.filter (fun b => b != a)
      · have hxrest : x ∈ rest := (List.mem_filter.mp hxr).1
        simp [hxr, hxrest, hxa]
      · have hxrest : x ∉ rest := by
          intro hc
          exact hxr (List.mem_filter.mpr ⟨hc, by simp [hxa]⟩)
        simp only [hxr, if_false, List.mem_cons]
        rw [if_neg, List.cons_append]
        rintro (h | h)
        · exact hxa h
        · exact hxrest h

theorem getBalQ_map (fe : List String) (g : String → ℚ) (b : String) :
    getBalQ (fe.map (fun a => (a, g a))) b = if b ∈ fe then some (g b) else none := by
  induction fe with
  | nil => simp [getBalQ]
  | cons a rest ih =>
    by_cases hab : a = b
    · subst hab; simp [getBalQ]
    · simp only [List.map_cons, getBalQ, if_neg hab, ih, List.mem_cons]
      simp [Ne.symm hab]

theorem setBalQ_map_mem (fe : List String) (g : String → ℚ) (b : String) (v : ℚ)
    (hmem : b ∈ fe) (hnd : fe.Nodup) :
    setBalQ (fe.map (fun a => (a, g a))) b v
      = fe.map (fun a => (a, if a = b then v else g a)) := by
  induction fe with
  | nil => simp at hmem
  | cons a rest ih =>
    obtain ⟨hna, hndr⟩ := List.nodup_cons.mp hnd
    by_cases hab : a = b
    · subst hab
      have htail : rest.map (fun c => (c, g c))
          = rest.map (fun c => (c, if c = a then v else g c)) := by
        refine List.map_congr_left ?_
        intro c hc
        have hca : c ≠ a := fun he => hna (he ▸ hc)
        rw [if_neg hca]
      rw [List.map_cons]
      rw [show setBalQ ((a, g a) :: rest.map (fun c => (c, g c))) a v
          = (a, v) :: rest.map (fun c => (c, g c)) from by simp [setBalQ]]
      rw [List.map_cons, if_pos rfl, htail]
    · have hbrest : b ∈ rest := by
        rcases List.mem_cons.mp hmem with h | h
        · exact absurd h.symm hab
        · exact h
      simp only [List.map_cons, setBalQ, if_neg hab, ih hbrest hndr]

theorem setBalQ_map_not_mem (fe : List String) (g : String → ℚ) (b : String) (v : ℚ)
    (hmem : b ∉ fe) :
    setBalQ (fe.map (fun a => (a, g a))) b v
      = fe.map (fun a => (a, g a)) ++ [(b, v)] := by
  induction fe with
  | nil => simp [setBalQ]
  | cons a rest ih =>
    have hab : a ≠ b := fun he => hmem (he ▸ List.mem_cons_self a rest)
    have hbrest : b ∉ rest := fun hc => hmem (List.mem_cons_of_mem _ hc)
    simp only [List.map_cons, setBalQ, if_neg hab, ih hbrest, List.cons_append]

theorem sumDelta_append_singleton (xs : List String) (l : String) (a : String) :
    sumDelta (xs ++ [l]) a
      = sumDelta xs a + (if rowAccount l = a then rowDeltaQ l else 0) := by
  unfold sumDelta
  rw [List.filter_append, List.map_append, List.sum_append]
  by_cases h : rowAccount l = a <;> simp [h]

theorem sumDelta_not_mem (xs : List String) (a : String)
    (h : a ∉ xs.map rowAccount) : sumDelta xs a = 0 := by
  unfold sumDelta
  rw [show xs.filter (fun l => rowAccount l == a) = [] from ?_]
  · rfl
  · rw [List.filter_eq_nil_iff]
    intro l hl
    have : rowAccount l ≠ a := fun he => h (he ▸ List.mem_map_of_mem rowAccount hl)
    simp [this]

theorem qBalances_spec (lines : List String) :
    qBalances lines
      = (firstEncountered (lines.map rowAccount)).map
          (fun a => (a, sumDelta lines a)) := by
  induction lines using List.reverseRecOn with
  | nil => simp [qBalances, firstEncountered]
  | append_singleton ls l ih =>
    have hstep : qBalances (ls ++ [l]) = stepQ (qBalances ls) l := by
      unfold qBalances
      rw [List.foldl_append]
      rfl
    rw [hstep, ih, List.map_append, List.map_singleton]
    unfold stepQ
    rw [getBalQ_map]
    by_cases hmem : rowAccount l ∈ ls.map rowAccount
    · have hmemfe : rowAccount l ∈ firstEncountered (ls.map rowAccount) :=
        (firstEncountered_mem _ _).mpr hmem
      rw [firstEncountered_append_singleton, if_pos hmem, if_pos hmemfe]
      simp only [Option.getD_some]
      rw [setBalQ_map_mem _ _ _ _ hmemfe (firstEncountered_nodup _)]
      refine List.map_congr_left ?_
      intro c hc
      rw [sumDelta_append_singleton]
      by_cases hca : c = rowAccount l
      · subst hca
        rw [if_pos rfl, if_pos rfl]
      · rw [if_neg hca, if_neg (fun he => hca he.symm), add_zero]
    · have hmemfe : rowAccount l ∉ firstEncountered (ls.map rowAccount) := fun hc =>
        hmem ((firstEncountered_mem _ _).mp hc)
      rw [firstEncountered_append_singleton, if_neg hmem, if_neg hmemfe]
      simp only [Option.getD_none]
      rw [setBalQ_map_not_mem _ _ _ _ hmemfe, List.map_append, List.map_singleton]
      congr 1
      · refine List.map_congr_left ?_
        intro c hc
        have hcls : c ∈ ls.map rowAccount := (firstEncountered_mem c _).mp hc
        have hca : rowAccount l ≠ c := fun he => hmem (he ▸ hcls)
        rw [sumDelta_append_singleton, if_neg hca, add_zero]
      · rw [sumDelta_append_singleton, if_pos rfl, sumDelta_not_mem ls _ hmem, zero_add]

end Accounting

/-! ## Claim theorems -/

namespace Accounting

/-- C10 counterexample: `this.states[scope]` is a plain-object property
access, so the scope `toString` — which is not one of the three report
names — returns the inherited `Object.prototype.toString`, not
`undefined`, contradicting the claim that every unknown scope returns no
status. -/
theorem state_returns_inherited_member :
    state initialStates "toString" = StateLookup.inherited "toString"
    ∧ ("toString" ≠ "accounts" ∧ "toString" ≠ "yearly" ∧ "toString" ≠ "fs")
    ∧ state initialStates "toString" ≠ StateLookup.undefined := by
  refine ⟨by decide, by decide, by decide⟩

/-- C10 as amended: `state(scope)` never raises; it returns the current
status string for each of the three report names; for any other scope
that names no `Object.prototype` member it returns `undefined`; but for
the inherited member names (`constructor`, `hasOwnProperty`, …,
`__proto__`) it returns the inherited `Object.prototype` member rather
than `undefined`. -/
theorem state_lookup_amended (s : States) (scope : String) :
    (scope ≠ "accounts" → scope ≠ "yearly" → scope ≠ "fs" →
      inheritsObjectMember scope = false → state s scope = StateLookup.undefined)
    ∧ state s "accounts" = StateLookup.status s.accounts
    ∧ state s "yearly" = StateLookup.status s.yearly
    ∧ state s "fs" = StateLookup.status s.fs
    ∧ (scope ≠ "accounts" → scope ≠ "yearly" → scope ≠ "fs" →
      inheritsObjectMember scope = true → state s scope = StateLookup.inherited scope) := by
  refine ⟨fun h1 h2 h3 h4 => ?_, ?_, ?_, ?_, fun h1 h2 h3 h4 => ?_⟩ <;> simp [state, *]

/-- Witness for the amended C10 at a concrete unknown scope. -/
theorem state_lookup_amended_witness : state initialStates "bogus" = StateLookup.undefined :=
  (state_lookup_amended initialStates "bogus").1 (by decide) (by decide) (by decide) (by decide)

/-- C8 counterexample: `accountsAsync` does NOT exclude its own output
filename from its input scan (line 276 filters only on the `.csv` suffix),
so a staging file named `accounts.csv` is read as input by the accounts
generator. -/
theorem accounts_scan_includes_own_output :
    accountsInputFiles [("accounts.csv", "x")] = [("accounts.csv", "x")]
    ∧ ("accounts.csv", "x") ∈ accountsInputFiles [("accounts.csv", "x")] := by
  constructor <;> decide

/-- C8 as amended: only the yearly and fs generators exclude their own
output filenames from their input scans; the accounts generator scans
every `.csv` file of the staging directory, its own output name included. -/
theorem own_output_excluded_only_yearly_fs (dir : List (String × String)) :
    (∀ f ∈ yearlyInputFiles dir, f.1 ≠ "yearly.csv")
    ∧ (∀ f ∈ fsInputFiles dir, f.1 ≠ "fs.csv")
    ∧ (∀ f ∈ dir, jsEndsWith f.1 ".csv" = true → f ∈ accountsInputFiles dir) := by
  refine ⟨?_, ?_, ?_⟩
  · intro f hf
    have hcond := (List.mem_filter.mp hf).2
    simp only [Bool.and_eq_true, bne_iff_ne, ne_eq] at hcond
    exact hcond.2
  · intro f hf
    have hcond := (List.mem_filter.mp hf).2
    simp only [Bool.and_eq_true, bne_iff_ne, ne_eq] at hcond
    exact hcond.2
  · intro f hf h
    exact List.mem_filter.mpr ⟨hf, h⟩

/-- Witness for the amended C8 at a concrete directory listing. -/
theorem own_output_excluded_only_yearly_fs_witness :
    ("accounts.csv", "x") ∈ accountsInputFiles [("accounts.csv", "x")] :=
  (own_output_excluded_only_yearly_fs [("accounts.csv", "x")]).2.2
    ("accounts.csv", "x") (by decide) (by decide)

/-- C6 counterexample: a row whose debit field is the non-numeric string
`abc` is NOT treated as 0 — `parseFloat('abc')` is `NaN`, which poisons the
Cash balance to `NaN`; under the claim the row would contribute `-5` and
print `-5.00`. -/
theorem nonNumeric_field_not_zero :
    accountsReportLines [("t.csv", "2024-01-01,Cash,,abc,5")]
      = .ok ["Account,Balance", "Cash,NaN"]
    ∧ (["Account,Balance", "Cash,NaN"] : List String)
      ≠ ["Account,Balance", "Cash,-5.00"] := by
  constructor <;> decide

/-- C6 as amended: a missing (`undefined`) or empty debit/credit field is
treated as 0 (the `|| 0` fallback), so a row with both fields missing
contributes 0; but a non-empty field on which `parseFloat` fails yields
`NaN`, which poisons the affected account balance (printed as `NaN`)
rather than contributing 0. -/
theorem malformed_field_handling :
    (∀ s : Option String, (s = none ∨ s = some "") → parseField s = JsNum.num 0)
    ∧ (∀ s : String, s ≠ "" → parseFloat s = JsNum.nan → parseField (some s) = JsNum.nan)
    ∧ (∀ line : String, rowDebit line = none → rowCredit line = none →
        rowDelta line = JsNum.num 0)
    ∧ accountsReportLines [("u.csv", "2024-01-02,Fees,,abc,5")]
        = .ok ["Account,Balance", "Fees,NaN"] := by
  refine ⟨?_, ?_, ?_, by decide⟩
  · rintro s (rfl | rfl) <;> simp [parseField]
  · intro s hs hp
    simp [parseField, hs, hp]
  · intro line h1 h2
    rw [rowDelta, h1, h2]
    show JsNum.num (0 - 0) = JsNum.num 0
    norm_num

/-- Witness for the amended C6: a missing field parses as 0. -/
theorem malformed_field_handling_witness : parseField none = JsNum.num 0 :=
  malformed_field_handling.1 none (Or.inl rfl)

/-- C1: every duration-metric update follows
`newAverage = (oldAverage * runsBefore + duration) / (runsBefore + 1)`
where `runsBefore` is the shared run counter at the moment of the update;
the counter is incremented exactly once per full pipeline run and never by
a direct single-report invocation, so a direct call updates that report's
last-run and average using the pipeline's current run count as the
denominator basis. -/
theorem average_update_rule (dA dY dF : List (String × String))
    (tA tY tF tT now : ℚ) (st : PipelineState) :
    ((processReportsAsyncRun (.ok dA) (.ok dY) (.ok dF) tA tY tF tT now st).1.metrics.runs
      = st.metrics.runs + 1)
    ∧ ((processReportsAsyncRun (.ok dA) (.ok dY) (.ok dF) tA tY tF tT now st).1.metrics.averageRunTime.accounts
      = (st.metrics.averageRunTime.accounts * (st.metrics.runs : ℚ) + tA) / ((st.metrics.runs : ℚ) + 1))
    ∧ ((processReportsAsyncRun (.ok dA) (.ok dY) (.ok dF) tA tY tF tT now st).1.metrics.averageRunTime.yearly
      = (st.metrics.averageRunTime.yearly * (st.metrics.runs : ℚ) + tY) / ((st.metrics.runs : ℚ) + 1))
    ∧ ((processReportsAsyncRun (.ok dA) (.ok dY) (.ok dF) tA tY tF tT now st).1.metrics.averageRunTime.fs
      = (st.metrics.averageRunTime.fs * (st.metrics.runs : ℚ) + tF) / ((st.metrics.runs : ℚ) + 1))
    ∧ ((processReportsAsyncRun (.ok dA) (.ok dY) (.ok dF) tA tY tF tT now st).1.metrics.averageRunTime.total
      = (st.metrics.averageRunTime.total * (st.metrics.runs : ℚ) + tT) / ((st.metrics.runs : ℚ) + 1))
    ∧ ((accountsAsyncRun (.ok dA) tA st).1.metrics.runs = st.metrics.runs)
    ∧ ((yearlyAsyncRun (.ok dY) tY st).1.metrics.runs = st.metrics.runs)
    ∧ ((fsAsyncRun (.ok dF) tF st).1.metrics.runs = st.metrics.runs)
    ∧ ((accountsAsyncRun (.ok dA) tA st).1.metrics.lastRunTime.accounts = tA)
    ∧ ((accountsAsyncRun (.ok dA) tA st).1.metrics.averageRunTime.accounts
      = (st.metrics.averageRunTime.accounts * (st.metrics.runs : ℚ) + tA) / ((st.metrics.runs : ℚ) + 1)) := by
  refine ⟨?_, ?_, ?_, ?_, ?_, ?_, ?_, ?_, ?_, ?_⟩ <;>
    simp [processReportsAsyncRun, accountsAsyncRun, yearlyAsyncRun, fsAsyncRun]

/-- C4: a generator failure is contained — it records `error: <message>` in
its own status, returns `false` without throwing, leaves its metrics
untouched, does not abort the sibling generators (their statuses are the
same as when accounts succeeds), and `processReportsAsync` still returns
`true`, records the total duration, increments the run counter and stamps
the completion timestamp. -/
theorem report_failure_contained (msg : String) (ey ef : FsOutcome)
    (tA tY tF tT now : ℚ) (st : PipelineState) :
    ((accountsAsyncRun (.error msg) tA st).2 = false)
    ∧ ((accountsAsyncRun (.error msg) tA st).1.states.accounts = "error: " ++ msg)
    ∧ ((accountsAsyncRun (.error msg) tA st).1.metrics = st.metrics)
    ∧ ((processReportsAsyncRun (.error msg) ey ef tA tY tF tT now st).2 = true)
    ∧ ((processReportsAsyncRun (.ok []) ey ef tA tY tF tT now st).2 = true)
    ∧ ((processReportsAsyncRun (.error msg) ey ef tA tY tF tT now st).1.states.accounts
      = "error: " ++ msg)
    ∧ ((processReportsAsyncRun (.error msg) ey ef tA tY tF tT now st).1.metrics.runs
      = st.metrics.runs + 1)
    ∧ ((processReportsAsyncRun (.error msg) ey ef tA tY tF tT now st).1.metrics.lastRun
      = some now)
    ∧ ((processReportsAsyncRun (.error msg) ey ef tA tY tF tT now st).1.metrics.lastRunTime.total
      = tT)
    ∧ ((processReportsAsyncRun (.error msg) ey ef tA tY tF tT now st).1.states.yearly
      = (processReportsAsyncRun (.ok []) ey ef tA tY tF tT now st).1.states.yearly)
    ∧ ((processReportsAsyncRun (.error msg) ey ef tA tY tF tT now st).1.states.fs
      = (processReportsAsyncRun (.ok []) ey ef tA tY tF tT now st).1.states.fs) := by
  cases ey <;> cases ef <;>
    simp [processReportsAsyncRun, accountsAsyncRun, yearlyAsyncRun, fsAsyncRun, statusError]

end Accounting

namespace Accounting

/-- C7 counterexample: the synchronous generator `accounts()` (line 343)
writes `finished in <2 decimals>` WITHOUT the `" seconds"` suffix, a status
string outside the four shapes claimed for all report operations. -/
theorem sync_status_outside_shapes :
    getStatus (runOps initialStates [ReportOp.finishSync ReportName.accounts 0])
      ReportName.accounts = "finished in 0.00"
    ∧ ¬ IsFourShape "finished in 0.00" := by
  constructor
  · show statusFinishedSync 0 = "finished in 0.00"
    unfold statusFinishedSync
    rw [show (0 : ℚ) / 1000 = ((0 : ℤ) : ℚ) by norm_num, ratToFixed2_intCast]
    decide
  · rintro (h | h | ⟨t, ht⟩ | ⟨m, hm⟩)
    · exact absurd h (by decide)
    · exact absurd h (by decide)
    · have hlen := congrArg String.length ht
      rw [String.length_append, String.length_append] at hlen
      rw [show ("finished in 0.00").length = 16 from rfl,
        show ("finished in ").length = 12 from rfl,
        show (" seconds").length = 8 from rfl] at hlen
      omega
    · have hdata := congrArg String.data hm
      rw [String.data_append] at hdata
      have h7 : List.take 7 ("finished in 0.00".data)
          = List.take 7 ("error: ".data ++ m.data) := by rw [hdata]
      rw [show (7 : ℕ) = ("error: ".data).length from rfl, List.take_left] at h7
      exact absurd h7 (by decide)

/-- C7 as amended: all three statuses are `idle` at process start, and
after any sequence of status writes from the asynchronous operations
(the ones reachable from the HTTP layer) every status has one of the four
claimed shapes; the synchronous legacy generators additionally produce
`finished in <2 decimals>` without the `" seconds"` suffix. -/
theorem async_status_shape_invariant :
    (∀ r, getStatus initialStates r = "idle")
    ∧ (∀ ops : List ReportOp, ops.all ReportOp.isAsync = true →
        ∀ r, IsFourShape (getStatus (runOps initialStates ops) r)) := by
  have key : ∀ (ops : List ReportOp) (s : States), ops.all ReportOp.isAsync = true →
      (∀ r, IsFourShape (getStatus s r)) →
      ∀ r, IsFourShape (getStatus (runOps s ops) r) := by
    intro ops
    induction ops with
    | nil => exact fun s _ hs r => hs r
    | cons op rest ih =>
      intro s hall hs r
      simp only [List.all_cons, Bool.and_eq_true] at hall
      show IsFourShape (getStatus (runOps (applyOp s op) rest) r)
      refine ih (applyOp s op) hall.2 ?_ r
      intro r'
      cases op with
      | start r0 =>
        simp only [applyOp]
        rw [getStatus_setStatus]
        by_cases hr : r' = r0
        · rw [if_pos hr]
          exact Or.inr (Or.inl rfl)
        · rw [if_neg hr]
          exact hs r'
      | finishAsync r0 t =>
        simp only [applyOp]
        rw [getStatus_setStatus]
        by_cases hr : r' = r0
        · rw [if_pos hr]
          exact Or.inr (Or.inr (Or.inl ⟨t / 1000, rfl⟩))
        · rw [if_neg hr]
          exact hs r'
      | fail r0 m =>
        simp only [applyOp]
        rw [getStatus_setStatus]
        by_cases hr : r' = r0
        · rw [if_pos hr]
          exact Or.inr (Or.inr (Or.inr ⟨m, rfl⟩))
        · rw [if_neg hr]
          exact hs r'
      | finishSync r0 t =>
        exact absurd hall.1 (by simp [ReportOp.isAsync])
  refine ⟨fun r => by cases r <;> rfl, fun ops hall r => key ops initialStates hall ?_ r⟩
  intro r'
  exact Or.inl (by cases r' <;> rfl)

/-- Witness for the amended C7: after a start and a failure write, the
accounts status has one of the four shapes. -/
theorem async_status_shape_invariant_witness :
    IsFourShape (getStatus (runOps initialStates
      [ReportOp.start ReportName.accounts, ReportOp.fail ReportName.accounts "boom"])
      ReportName.accounts) :=
  async_status_shape_invariant.2 _ (by decide) _

end Accounting

namespace Tickets

theorem countP_companyId_map (cid : ℕ) (f : Ticket → Ticket)
    (hf : ∀ t, (f t).companyId = t.companyId) (l : List Ticket) :
    (l.map f).countP (fun t => decide (t.companyId = cid))
      = l.countP (fun t => decide (t.companyId = cid)) := by
  induction l with
  | nil => rfl
  | cons t rest ih =>
    simp only [List.map_cons, List.countP_cons, ih, hf]

/-- C2: creating a `strikeOff` ticket for a company with zero directors or
two or more directors fails with a conflict error, and the transaction
rollback leaves the store unchanged: no ticket row inserted, no status
modified. -/
theorem strikeOff_conflict_rollback (st : Store) (cid : ℕ)
    (h : (findUsers st cid UserRole.director).length ≠ 1) :
    (∃ msg, (createTicketRun st TicketType.strikeOff cid).2
        = .error (.conflict msg))
    ∧ (createTicketRun st TicketType.strikeOff cid).1 = st := by
  have hdisp : createTicket st TicketType.strikeOff cid = createStrikeOffTicket st cid := by
    simp [createTicket]
  rcases hfd : findUsers st cid UserRole.director with _ | ⟨d, _ | ⟨e, rest2⟩⟩
  · exact ⟨⟨"Cannot find user with role director to create a strike off ticket", by
      simp [createTicketRun, hdisp, createStrikeOffTicket, hfd]⟩, by
      simp [createTicketRun, hdisp, createStrikeOffTicket, hfd]⟩
  · rw [hfd] at h
    simp at h
  · exact ⟨⟨"Multiple users with role director. Cannot create a strike off ticket", by
      simp [createTicketRun, hdisp, createStrikeOffTicket, hfd]⟩, by
      simp [createTicketRun, hdisp, createStrikeOffTicket, hfd]⟩

/-- Witness for C2 at a concrete store with two directors. -/
theorem strikeOff_conflict_rollback_witness :
    (createTicketRun
      { users := [{ id := 1, role := UserRole.director, companyId := 1, createdAt := 0 },
                  { id := 2, role := UserRole.director, companyId := 1, createdAt := 1 }],
        tickets := [{ id := 0, type := TicketType.managementReport, companyId := 1,
                      assigneeId := 3, status := TicketStatus.«open»,
                      category := TicketCategory.accounting }],
        nextTicketId := 1 } TicketType.strikeOff 1).1
      = { users := [{ id := 1, role := UserRole.director, companyId := 1, createdAt := 0 },
                    { id := 2, role := UserRole.director, companyId := 1, createdAt := 1 }],
          tickets := [{ id := 0, type := TicketType.managementReport, companyId := 1,
                        assigneeId := 3, status := TicketStatus.«open»,
                        category := TicketCategory.accounting }],
          nextTicketId := 1 } :=
  (strikeOff_conflict_rollback _ 1 (by decide)).2

end Tickets

namespace Tickets

theorem strikeOff_success_run_eq (st : Store) (cid : ℕ) (d : User)
    (hd : findUsers st cid UserRole.director = [d]) :
    createTicketRun st TicketType.strikeOff cid
      = ({ users := st.users,
           tickets := (st.tickets ++ [newStrikeTicket st cid d]).map (fun t =>
             if t.companyId = cid ∧ t.status = TicketStatus.«open» ∧ t.id ≠ st.nextTicketId
             then { t with status := TicketStatus.resolved } else t),
           nextTicketId := st.nextTicketId + 1 },
         .ok (mapTicketToDto (newStrikeTicket st cid d))) := by
  simp [createTicketRun, createTicket, createStrikeOffTicket, hd, newStrikeTicket]

/-- C3: for a company with exactly one director and any number of other
open tickets, `createTicket` with type `strikeOff` succeeds: the response
is an open management ticket assigned to that director; the new row is in
the store; every previously-open ticket of that company is now resolved
(the just-created ticket excluded); untouched tickets remain; and the
company's ticket count (and the total count) increases by exactly 1. -/
theorem strikeOff_success_resolves_others (st : Store) (cid : ℕ) (d : User)
    (hd : findUsers st cid UserRole.director = [d])
    (hids : ∀ t ∈ st.tickets, t.id < st.nextTicketId) :
    ((createTicketRun st TicketType.strikeOff cid).2
        = .ok (mapTicketToDto (newStrikeTicket st cid d)))
    ∧ (mapTicketToDto (newStrikeTicket st cid d)).category = TicketCategory.management
    ∧ (mapTicketToDto (newStrikeTicket st cid d)).status = TicketStatus.«open»
    ∧ (mapTicketToDto (newStrikeTicket st cid d)).assigneeId = d.id
    ∧ ((createTicketRun st TicketType.strikeOff cid).1.tickets.length
        = st.tickets.length + 1)
    ∧ ((createTicketRun st TicketType.strikeOff cid).1.tickets.countP
          (fun t => decide (t.companyId = cid))
        = st.tickets.countP (fun t => decide (t.companyId = cid)) + 1)
    ∧ newStrikeTicket st cid d ∈ (createTicketRun st TicketType.strikeOff cid).1.tickets
    ∧ (∀ t ∈ st.tickets, t.companyId = cid → t.status = TicketStatus.«open» →
        { t with status := TicketStatus.resolved }
          ∈ (createTicketRun st TicketType.strikeOff cid).1.tickets)
    ∧ (∀ t ∈ st.tickets, ¬(t.companyId = cid ∧ t.status = TicketStatus.«open») →
        t ∈ (createTicketRun st TicketType.strikeOff cid).1.tickets) := by
  rw [strikeOff_success_run_eq st cid d hd]
  have hf : ∀ t : Ticket,
      ((if t.companyId = cid ∧ t.status = TicketStatus.«open» ∧ t.id ≠ st.nextTicketId
        then { t with status := TicketStatus.resolved } else t) : Ticket).companyId
        = t.companyId := by
    intro t
    split <;> rfl
  refine ⟨rfl, rfl, rfl, rfl, by simp, ?_, ?_, ?_, ?_⟩
  · rw [countP_companyId_map cid _ hf, List.countP_append]
    simp [newStrikeTicket, List.countP_cons]
  · refine List.mem_map.mpr ⟨newStrikeTicket st cid d, by simp, ?_⟩
    rw [if_neg]
    rintro ⟨-, -, hne⟩
    exact hne rfl
  · intro t ht h1 h2
    refine List.mem_map.mpr ⟨t, List.mem_append_left _ ht, ?_⟩
    rw [if_pos ⟨h1, h2, Nat.ne_of_lt (hids t ht)⟩]
  · intro t ht hno
    refine List.mem_map.mpr ⟨t, List.mem_append_left _ ht, ?_⟩
    rw [if_neg]
    rintro ⟨h1, h2, -⟩
    exact hno ⟨h1, h2⟩

/-- Witness for C3 at a concrete store with one director and two other
open tickets of the company. -/
theorem strikeOff_success_resolves_others_witness :
    ((createTicketRun
      { users := [{ id := 10, role := UserRole.director, companyId := 1, createdAt := 5 }],
        tickets := [{ id := 0, type := TicketType.managementReport, companyId := 1,
                      assigneeId := 11, status := TicketStatus.«open»,
                      category := TicketCategory.accounting },
                    { id := 1, type := TicketType.registrationAddressChange, companyId := 1,
                      assigneeId := 12, status := TicketStatus.«open»,
                      category := TicketCategory.corporate }],
        nextTicketId := 2 } TicketType.strikeOff 1).1.tickets.length
      = 2 + 1) :=
  (strikeOff_success_resolves_others _ 1
    { id := 10, role := UserRole.director, companyId := 1, createdAt := 5 }
    (by decide) (by decide)).2.2.2.2.1

end Tickets

namespace Accounting

theorem parseField_1000 : parseField (some "1000") = JsNum.num ((1000 : ℕ) : ℚ) := by
  rw [show parseField (some "1000")
      = JsNum.num (decValue 1 ['1', '0', '0', '0'] [] * (10 : ℚ) ^ (0 : ℤ)) from rfl,
    decValue_digits _ 1000 (by decide)]
  simp

theorem parseField_300 : parseField (some "300") = JsNum.num ((300 : ℕ) : ℚ) := by
  rw [show parseField (some "300")
      = JsNum.num (decValue 1 ['3', '0', '0'] [] * (10 : ℚ) ^ (0 : ℤ)) from rfl,
    decValue_digits _ 300 (by decide)]
  simp

theorem parseField_0 : parseField (some "0") = JsNum.num ((0 : ℕ) : ℚ) := by
  rw [show parseField (some "0")
      = JsNum.num (decValue 1 ['0'] [] * (10 : ℚ) ^ (0 : ℤ)) from rfl,
    decValue_digits _ 0 (by decide)]
  simp

theorem accountsReportLines_cash1000 :
    accountsReportLines [("a.csv", "2024-01-01,Cash,,1000,0")]
      = .ok ["Account,Balance", "Cash,1000.00"] := by
  have hdelta : rowDelta "2024-01-01,Cash,,1000,0"
      = JsNum.num (((1000 : ℕ) : ℚ) - ((0 : ℕ) : ℚ)) := by
    rw [rowDelta, show rowDebit "2024-01-01,Cash,,1000,0" = some "1000" from by decide,
      show rowCredit "2024-01-01,Cash,,1000,0" = some "0" from by decide,
      parseField_1000, parseField_0]
    rfl
  have hacct : rowAccount "2024-01-01,Cash,,1000,0" = "Cash" := by decide
  have hbal : accountsBalances [("a.csv", "2024-01-01,Cash,,1000,0")]
      = [("Cash", JsNum.num (0 + (((1000 : ℕ) : ℚ) - ((0 : ℕ) : ℚ))))] := by
    rw [accountsBalances,
      show accountsInputFiles [("a.csv", "2024-01-01,Cash,,1000,0")]
        = [("a.csv", "2024-01-01,Cash,,1000,0")] from by decide]
    show processContent [] "2024-01-01,Cash,,1000,0" = _
    rw [processContent,
      show fileLines "2024-01-01,Cash,,1000,0" = ["2024-01-01,Cash,,1000,0"] from by decide]
    show processLine [] "2024-01-01,Cash,,1000,0" = _
    rw [processLine_fresh [] _ "Cash" (JsNum.num (((1000 : ℕ) : ℚ) - ((0 : ℕ) : ℚ)))
      hacct (by decide) hdelta rfl]
    rfl
  rw [accountsReportLines_eval _ _ hbal (by intro p hp; simp at hp; simp [hp, isArrayIndex])
    (by intro p hp; simp at hp; simp [hp, JsNum.isStr])]
  simp only [List.map_cons, List.map_nil, JsNum.toFixed2]
  rw [show (0 : ℚ) + (((1000 : ℕ) : ℚ) - ((0 : ℕ) : ℚ)) = ((1000 : ℤ) : ℚ) from by norm_num,
    ratToFixed2_intCast]
  decide

/-- C9 (code bug in the source): the constructor stores the configured
staging and output directories (`reports.tmpDir`, `reports.outputDir`,
defaults `tmp`/`out`), but every generator hardcodes `'tmp'` and
`'out/<name>.csv'` — so with a configured staging directory `staging`
holding a Cash row, the generator still scans `tmp` (producing an empty
report) while the configured directory's data would produce a Cash row. -/
theorem hardcoded_dirs_ignore_config :
    TMP_DIR ⟨some "staging", some "configured_out", none⟩ = "staging"
    ∧ OUTPUT_DIR ⟨some "staging", some "configured_out", none⟩ = "configured_out"
    ∧ accountsTmpDir = "tmp"
    ∧ accountsOutputFile = "out/accounts.csv"
    ∧ accountsReportFrom
        (fun dnm => if dnm = "staging" then [("a.csv", "2024-01-01,Cash,,1000,0")] else [])
        = .ok ["Account,Balance"]
    ∧ accountsReportLines
        ((fun dnm => if dnm = "staging" then [("a.csv", "2024-01-01,Cash,,1000,0")] else [])
          (TMP_DIR ⟨some "staging", some "configured_out", none⟩))
        = .ok ["Account,Balance", "Cash,1000.00"] := by
  refine ⟨rfl, rfl, rfl, rfl, by decide, ?_⟩
  show accountsReportLines [("a.csv", "2024-01-01,Cash,,1000,0")] = _
  exact accountsReportLines_cash1000

theorem qBalances_keys (lines : List String) :
    (qBalances lines).map Prod.fst = firstEncountered (lines.map rowAccount) := by
  rw [qBalances_spec, List.map_map]
  exact List.map_id _

theorem jsEntries_pair_reorder (a b : String) (v w : JsNum)
    (ha : isArrayIndex a = false) (hb : isArrayIndex b = true) :
    jsEntries [(a, v), (b, w)] = [(b, w), (a, v)] := by
  unfold jsEntries sortByIndex
  rw [show [(a, v), (b, w)].filter (fun p => isArrayIndex p.1) = [(b, w)] from by
      simp [ha, hb],
    show [(a, v), (b, w)].filter (fun p => !isArrayIndex p.1) = [(a, v)] from by
      simp [ha, hb]]
  rfl

/-- C5 counterexample: `Object.entries` enumerates array-index-like keys
first in numeric order, so an account named `42` encountered AFTER `Cash`
is still printed before it — the claimed first-encounter row order fails
even though every debit/credit field is numeric. -/
theorem integer_key_account_reorders_output :
    accountsReportLines [("a.csv", "2024-01-01,Cash,,1000,0\n2024-01-02,42,,1000,0")]
      = .ok ["Account,Balance", "42,1000.00", "Cash,1000.00"]
    ∧ (["Account,Balance", "42,1000.00", "Cash,1000.00"] : List String)
      ≠ ["Account,Balance", "Cash,1000.00", "42,1000.00"] := by
  constructor
  · have hdelta1 : rowDelta "2024-01-01,Cash,,1000,0"
        = JsNum.num (((1000 : ℕ) : ℚ) - ((0 : ℕ) : ℚ)) := by
      rw [rowDelta, show rowDebit "2024-01-01,Cash,,1000,0" = some "1000" from by decide,
        show rowCredit "2024-01-01,Cash,,1000,0" = some "0" from by decide,
        parseField_1000, parseField_0]
      rfl
    have hdelta2 : rowDelta "2024-01-02,42,,1000,0"
        = JsNum.num (((1000 : ℕ) : ℚ) - ((0 : ℕ) : ℚ)) := by
      rw [rowDelta, show rowDebit "2024-01-02,42,,1000,0" = some "1000" from by decide,
        show rowCredit "2024-01-02,42,,1000,0" = some "0" from by decide,
        parseField_1000, parseField_0]
      rfl
    have hacct1 : rowAccount "2024-01-01,Cash,,1000,0" = "Cash" := by decide
    have hacct2 : rowAccount "2024-01-02,42,,1000,0" = "42" := by decide
    have hstep1 : processLine [] "2024-01-01,Cash,,1000,0"
        = [("Cash", JsNum.num (0 + (((1000 : ℕ) : ℚ) - ((0 : ℕ) : ℚ))))] := by
      rw [processLine_fresh [] _ "Cash" _ hacct1 (by decide) hdelta1 rfl]
      rfl
    have hstep2 : processLine
          [("Cash", JsNum.num (0 + (((1000 : ℕ) : ℚ) - ((0 : ℕ) : ℚ))))]
          "2024-01-02,42,,1000,0"
        = [("Cash", JsNum.num (0 + (((1000 : ℕ) : ℚ) - ((0 : ℕ) : ℚ)))),
           ("42", JsNum.num (0 + (((1000 : ℕ) : ℚ) - ((0 : ℕ) : ℚ))))] := by
      rw [processLine_fresh _ _ "42" _ hacct2 (by decide) hdelta2 (by simp [getBal])]
      rfl
    have hbal : accountsBalances
          [("a.csv", "2024-01-01,Cash,,1000,0\n2024-01-02,42,,1000,0")]
        = [("Cash", JsNum.num (0 + (((1000 : ℕ) : ℚ) - ((0 : ℕ) : ℚ)))),
           ("42", JsNum.num (0 + (((1000 : ℕ) : ℚ) - ((0 : ℕ) : ℚ))))] := by
      rw [accountsBalances,
        show accountsInputFiles [("a.csv", "2024-01-01,Cash,,1000,0\n2024-01-02,42,,1000,0")]
          = [("a.csv", "2024-01-01,Cash,,1000,0\n2024-01-02,42,,1000,0")] from by decide]
      show processContent [] "2024-01-01,Cash,,1000,0\n2024-01-02,42,,1000,0" = _
      rw [processContent,
        show fileLines "2024-01-01,Cash,,1000,0\n2024-01-02,42,,1000,0"
          = ["2024-01-01,Cash,,1000,0", "2024-01-02,42,,1000,0"] from by decide]
      show processLine (processLine [] "2024-01-01,Cash,,1000,0") "2024-01-02,42,,1000,0" = _
      rw [hstep1, hstep2]
    unfold accountsReportLines
    rw [hbal, jsEntries_pair_reorder "Cash" "42" _ _ (by decide) (by decide)]
    rw [any_isStr_false _ (by
      intro p hp
      simp only [List.mem_cons, List.not_mem_nil, or_false] at hp
      rcases hp with h | h <;> simp [h, JsNum.isStr])]
    simp only [Bool.false_eq_true, if_false, List.map_cons, List.map_nil, JsNum.toFixed2]
    rw [show (0 : ℚ) + (((1000 : ℕ) : ℚ) - ((0 : ℕ) : ℚ)) = ((1000 : ℤ) : ℚ) from by norm_num,
      ratToFixed2_intCast]
    decide
  · decide

/-- C5 as amended: for staging contents whose rows all have finite numeric
debit/credit fields, account names that are neither array-index-like
(`Object.entries` would enumerate those first, breaking first-encounter
order) nor inherited `Object.prototype` member names (those collide with
the prototype and make the generator throw), and integer-valued fields
with total magnitude below `2^53` (so IEEE-double arithmetic and
formatting are exact and the rational idealization coincides with the
program), the accounts report is the header followed by exactly one row
per distinct account in first-encounter order, each balance being
Σ(debit − credit) over all rows of all files, formatted to two decimals;
in particular the Cash rows 1000/0 and 0/300, however distributed over
files, yield `Cash,700.00`. -/
theorem accounts_report_plain_spec (dir : List (String × String))
    (h : allLinesGood dir = true) :
    (accountsReportLines dir
      = .ok ("Account,Balance"
        :: (firstEncountered ((allLines dir).map rowAccount)).map
            (fun a => a ++ "," ++ ratToFixed2 (sumDelta (allLines dir) a))))
    ∧ (firstEncountered ((allLines dir).map rowAccount)).Nodup
    ∧ (∀ a, a ∈ firstEncountered ((allLines dir).map rowAccount)
        ↔ a ∈ (allLines dir).map rowAccount)
    ∧ (allLines dir = ["2024-01-01,Cash,,1000,0", "2024-01-05,Cash,,0,300"] →
        accountsReportLines dir = .ok ["Account,Balance", "Cash,700.00"]) := by
  have hgood : (allLines dir).all lineGood = true := by
    simp only [allLinesGood, Bool.and_eq_true] at h
    exact h.1
  have hAll := List.all_eq_true.mp hgood
  have hPN : (allLines dir).all (fun l => lineNumeric l && plainKey (rowAccount l)) = true := by
    rw [List.all_eq_true]
    intro l hl
    have hg := hAll l hl
    simp only [lineGood, Bool.and_eq_true] at hg
    simp only [Bool.and_eq_true]
    exact hg.1
  have hbals : accountsBalances dir = mapNum (qBalances (allLines dir)) := by
    rw [accountsBalances_eq_foldl]
    exact foldl_processLine_mapNum _ [] hPN
  have hkeys : ∀ p ∈ mapNum (qBalances (allLines dir)), isArrayIndex p.1 = false := by
    intro p hp
    rw [mapNum] at hp
    obtain ⟨q, hq, rfl⟩ := List.mem_map.mp hp
    have h1 : q.1 ∈ (qBalances (allLines dir)).map Prod.fst := List.mem_map_of_mem _ hq
    rw [qBalances_keys] at h1
    have h2 : q.1 ∈ (allLines dir).map rowAccount := (firstEncountered_mem _ _).mp h1
    obtain ⟨l, hl, hacc⟩ := List.mem_map.mp h2
    have hg := hAll l hl
    simp only [lineGood, Bool.and_eq_true] at hg
    have hidx := hg.2.1
    rw [Bool.not_eq_true'] at hidx
    rw [← hacc]
    exact hidx
  have hstr : ∀ p ∈ mapNum (qBalances (allLines dir)), p.2.isStr = false := by
    intro p hp
    rw [mapNum] at hp
    obtain ⟨q, hq, rfl⟩ := List.mem_map.mp hp
    rfl
  have hmain : accountsReportLines dir
      = .ok ("Account,Balance"
        :: (firstEncountered ((allLines dir).map rowAccount)).map
            (fun a => a ++ "," ++ ratToFixed2 (sumDelta (allLines dir) a))) := by
    rw [accountsReportLines_eval dir _ hbals hkeys hstr]
    rw [show mapNum (qBalances (allLines dir))
        = ((firstEncountered ((allLines dir).map rowAccount)).map
            (fun a => (a, sumDelta (allLines dir) a))).map (fun p => (p.1, JsNum.num p.2))
      from by rw [mapNum, qBalances_spec]]
    rw [List.map_map, List.map_map]
    rfl
  refine ⟨hmain, firstEncountered_nodup _, fun a => firstEncountered_mem a _, ?_⟩
  intro heq
  rw [hmain, heq]
  have hacct1 : rowAccount "2024-01-01,Cash,,1000,0" = "Cash" := by decide
  have hacct2 : rowAccount "2024-01-05,Cash,,0,300" = "Cash" := by decide
  have hd1 : rowDeltaQ "2024-01-01,Cash,,1000,0" = ((1000 : ℕ) : ℚ) - ((0 : ℕ) : ℚ) := by
    rw [rowDeltaQ, show rowDebit "2024-01-01,Cash,,1000,0" = some "1000" from by decide,
      show rowCredit "2024-01-01,Cash,,1000,0" = some "0" from by decide,
      parseField_1000, parseField_0]
    rfl
  have hd2 : rowDeltaQ "2024-01-05,Cash,,0,300" = ((0 : ℕ) : ℚ) - ((300 : ℕ) : ℚ) := by
    rw [rowDeltaQ, show rowDebit "2024-01-05,Cash,,0,300" = some "0" from by decide,
      show rowCredit "2024-01-05,Cash,,0,300" = some "300" from by decide,
      parseField_0, parseField_300]
    rfl
  have hsum : sumDelta ["2024-01-01,Cash,,1000,0", "2024-01-05,Cash,,0,300"] "Cash"
      = rowDeltaQ "2024-01-01,Cash,,1000,0" + (rowDeltaQ "2024-01-05,Cash,,0,300" + 0) := by
    rw [sumDelta,
      show (["2024-01-01,Cash,,1000,0", "2024-01-05,Cash,,0,300"].filter
        (fun l => rowAccount l == "Cash"))
        = ["2024-01-01,Cash,,1000,0", "2024-01-05,Cash,,0,300"] from by decide]
    rfl
  rw [List.map_cons, List.map_cons, List.map_nil, hacct1, hacct2]
  rw [show firstEncountered ["Cash", "Cash"] = ["Cash"] from by simp [firstEncountered]]
  simp only [List.map_cons, List.map_nil]
  rw [hsum, hd1, hd2]
  rw [show ((((1000 : ℕ) : ℚ) - ((0 : ℕ) : ℚ)) + (((((0 : ℕ) : ℚ) - ((300 : ℕ) : ℚ))) + 0))
      = ((700 : ℤ) : ℚ) from by norm_num, ratToFixed2_intCast]
  decide

/-- Witness for the amended C5: two Cash rows split over two staging files
produce the report `Cash,700.00`. -/
theorem accounts_report_plain_spec_witness :
    accountsReportLines
      [("a.csv", "2024-01-01,Cash,,1000,0"), ("b.csv", "2024-01-05,Cash,,0,300")]
      = .ok ["Account,Balance", "Cash,700.00"] :=
  (accounts_report_plain_spec _ (by decide)).2.2.2 (by decide)

end Accounting
